import Mathlib

/-
Verification of the AM_Creep_Analysis plotting pipeline
(src/AM_Creep_Analysis/multi_plot.py and plot_results.py).

Modelling conventions:
- Python strings are Lean String values where only ASCII handling matters;
  header text subject to encoding repair is modelled as List Nat of Unicode
  code points.
- pandas DataFrames are modelled as a list of column names plus rows given
  as association lists from column name to rational value; a missing key in
  a row plays the role of NaN (pandas mean/std skip NaN, and groupby drops
  NaN keys).
- float64 arithmetic is idealised as exact arithmetic over ℚ.
- pandas sample standard deviation (ddof=1) is irrational in general, so the
  model tracks its square, the sample variance; std is its square root, and
  every claim about std values is settled at the level of the variance.
- a raised-and-not-caught Python exception is modelled by a dedicated
  result constructor.
-/

/-! Generic helpers -/

deriving instance DecidableEq for Except

/-- Whitespace code points: the set matched by Python's str.isspace and by
the regex class backslash-s on str patterns. -/
def isWsCp (c : Nat) : Bool :=
  (9 ≤ c && c ≤ 13) || c == 32 || (28 ≤ c && c ≤ 31) || c == 133 || c == 160 ||
  c == 5760 || (8192 ≤ c && c ≤ 8202) || c == 8232 || c == 8233 ||
  c == 8239 || c == 8287 || c == 12288

/-- Whitespace test on a character. -/
def isWsCh (c : Char) : Bool := isWsCp c.toNat

/-- Decide whether p occurs as a contiguous subsequence of l (used to state
what an error message does or does not report). -/
def containsSeq (p : List Char) : List Char → Bool
  | [] => p.isEmpty
  | c :: rest => p.isPrefixOf (c :: rest) || containsSeq p rest

/-! Column Resolver: multi_plot.py lines 70-81 (resolve_column).

The source calls int(col_input) inside a try whose except clause catches
ValueError; int() accepts surrounding whitespace, an optional sign and
single underscores between digits. -/

/-- ASCII digit test. -/
def isDigitCh (c : Char) : Bool := 48 ≤ c.toNat && c.toNat ≤ 57

/-- Accumulate the value of a digit string in which a single underscore may
separate two digits (Python int literal grammar); afterU records whether the
previous character was an underscore. -/
def pyDigitsGo (afterU : Bool) (acc : Nat) : List Char → Option Nat
  | [] => if afterU then none else some acc
  | c :: rest =>
    if isDigitCh c then pyDigitsGo false (acc * 10 + (c.toNat - 48)) rest
    else if c = '_' then (if afterU then none else pyDigitsGo true acc rest)
    else none

/-- Parse an unsigned digit part; it must start with a digit. -/
def pyIntDigits (ds : List Char) : Option Nat :=
  match ds with
  | [] => none
  | d :: _ => if isDigitCh d then pyDigitsGo false 0 ds else none

/-- Remove leading and trailing whitespace from a character list. -/
def stripChars (cs : List Char) : List Char :=
  ((cs.dropWhile isWsCh).reverse.dropWhile isWsCh).reverse

/-- Python int(s) for str arguments: strip whitespace, optional sign,
digits with optional single underscores between them; none models the
ValueError raised on any other input. -/
def pyInt (s : String) : Option Int :=
  match stripChars s.toList with
  | [] => none
  | c :: rest =>
    if c = '-' then (pyIntDigits rest).map (fun n => -(n : Int))
    else if c = '+' then (pyIntDigits rest).map (fun n => (n : Int))
    else (pyIntDigits (c :: rest)).map (fun n => (n : Int))

/-- Message built at multi_plot.py line 81. -/
def notFoundMsg (tok : String) : String :=
  "Column \x27" ++ tok ++ "\x27 not found."

/-- Message built at multi_plot.py line 76.  The ValueError carrying it is
raised inside the try block whose own except ValueError clause catches it,
so this message never reaches the caller. -/
def outOfRangeMsg (tok : String) : String :=
  "Column index " ++ tok ++ " out of range."

/-- multi_plot.py resolve_column (lines 70-81).  The branch in which the
index is out of range models the control flow of the source faithfully: the
raise at line 76 is caught by the except ValueError at line 77, so execution
continues with the literal-match fallback of the except body. -/
def resolve_column (col_input : String) (all_columns : List String) :
    Except String String :=
  match pyInt col_input with
  | some n =>
    if 0 ≤ n - 1 ∧ n - 1 < (all_columns.length : Int) then
      Except.ok (all_columns.getD (n - 1).toNat "")
    else
      -- the out-of-range ValueError is swallowed by the enclosing except:
      -- fall through to the literal matching of the except body
      if col_input ∈ all_columns then Except.ok col_input
      else Except.error (notFoundMsg col_input)
  | none =>
    if col_input ∈ all_columns then Except.ok col_input
    else Except.error (notFoundMsg col_input)

/-! Aggregator: multi_plot.py compute_average (lines 104-122) and the group
loop of main (lines 213-219). -/

/-- Association-list lookup of a column value within a row; none models a
NaN cell read. -/
def pyLookup (k : String) : List (String × ℚ) → Option ℚ
  | [] => none
  | kv :: rest => if k = kv.1 then some kv.2 else pyLookup k rest

/-- A loaded table: ordered column names plus rows as association lists from
column name to value; an absent key models a NaN cell. -/
structure DFrame where
  cols : List String
  rows : List (List (String × ℚ))
deriving DecidableEq

/-- Union of column lists in order of first appearance, as produced by
pd.concat over frames with differing schemas. -/
def unionCols (acc cs : List String) : List String :=
  acc ++ cs.filter (fun c => !(acc.contains c))

/-- pd.concat(data_frames, axis=0, ignore_index=True): rows stacked in
order, columns the union in order of first appearance (line 107). -/
def concatFrames (frames : List DFrame) : DFrame :=
  { cols := frames.foldl (fun acc f => unionCols acc f.cols) []
  , rows := (frames.map DFrame.rows).flatten }

/-- pandas Series.mean with skipna: NaN on an empty value list. -/
def meanOf (vs : List ℚ) : Option ℚ :=
  if vs.length = 0 then none else some (vs.sum / vs.length)

/-- Square of the pandas sample standard deviation (ddof=1): the sample
variance; NaN (none) when fewer than two values are present. -/
def svarOf (vs : List ℚ) : Option ℚ :=
  if vs.length < 2 then none
  else some ((vs.map (fun v => (v - vs.sum / vs.length) ^ 2)).sum /
    ((vs.length : ℚ) - 1))

/-- One output row of the binned path.  lo and hi are the unrounded edges
of the half-open bin (lo, hi] that decide which rows the bin aggregates
(pd.cut assigns by the raw edges); per requested column the mean and the
squared std follow; xmid is the value line 118 stores under the x column
name: the midpoint of the bin's stored interval label, whose endpoints
pd.cut rounds for display.  reset_index(drop=True) removes the interval
itself from the real output; lo and hi are kept here to record which rows
the row aggregates. -/
structure BinRow where
  lo : ℚ
  hi : ℚ
  stats : List (String × Option ℚ × Option ℚ)
  xmid : ℚ
deriving DecidableEq

/-- One output row of the unbinned path: the x value and, per requested
column, its mean (no std column exists on this path). -/
structure XRow where
  x : ℚ
  means : List (String × Option ℚ)
deriving DecidableEq

/-- Result table of compute_average: empty DataFrame, an uncaught exception
(negative bin count, or pd.cut over no x values), or the rows of the binned
respectively unbinned path. -/
inductive CATable where
  | emptyT : CATable
  | raisedT : CATable
  | binned : List BinRow → CATable
  | unbinned : List XRow → CATable
deriving DecidableEq

/-- Rows of a binned result. -/
def CATable.brows : CATable → List BinRow
  | .binned rs => rs
  | _ => []

/-- Rows of an unbinned result. -/
def CATable.urows : CATable → List XRow
  | .unbinned rs => rs
  | _ => []

/-- DataFrame.empty as used by main at line 217. -/
def CATable.isEmptyT : CATable → Bool
  | .emptyT => true
  | .raisedT => true
  | .binned rs => rs.isEmpty
  | .unbinned rs => rs.isEmpty

/-- Minimum of a value list (only used on non-empty lists). -/
def minOf : List ℚ → ℚ
  | [] => 0
  | v :: vs => vs.foldl min v

/-- Maximum of a value list (only used on non-empty lists). -/
def maxOf : List ℚ → ℚ
  | [] => 0
  | v :: vs => vs.foldl max v

/-- Bin edges of pd.cut(series, bins=b) with right=True: b+1 equally spaced
points over the observed range; if the range is degenerate both ends are
moved out by 0.1 percent (or 0.001 at zero), otherwise the leftmost edge is
lowered by 0.1 percent of the range so the minimum falls inside the first
half-open interval. -/
def cutEdges (mn mx : ℚ) (b : Nat) : List ℚ :=
  if mn = mx then
    (List.range (b + 1)).map (fun (i : Nat) =>
      (mn - (if mn = 0 then 1 / 1000 else |mn| / 1000)) +
        ((mx + (if mx = 0 then 1 / 1000 else |mx| / 1000)) -
          (mn - (if mn = 0 then 1 / 1000 else |mn| / 1000))) * (i : ℚ) / (b : ℚ))
  else
    (List.range (b + 1)).map (fun (i : Nat) =>
      if i = 0 then mn - (mx - mn) / 1000 else mn + (mx - mn) * (i : ℚ) / (b : ℚ))

/-- Number of decimal digits of a natural number, by fuelled division
(the fuel n suffices since n shrinks by a factor of ten each step). -/
def numDigitsGo : Nat → Nat → Nat
  | 0, _ => 1
  | fuel + 1, n => if n < 10 then 1 else numDigitsGo fuel (n / 10) + 1

/-- Number of decimal digits of a natural number. -/
def numDigits (n : Nat) : Nat := numDigitsGo n n

/-- Negated floor of log10 q for 0 < q < 1, the quantity
-floor(log10(abs(frac))) that _round_frac uses on a number with zero
integer part: the smallest k with q * 10^k at least 1, which equals the
decimal digit count of ceil(1/q) - 1 since 10^k is an integer. -/
def negExp (q : ℚ) : Nat := numDigits (⌈1 / q⌉.toNat - 1)

/-- np.around to an integer: round half to even. -/
def roundHalfEven (q : ℚ) : Int :=
  if q < (⌊q⌋ : ℚ) + 1 / 2 then ⌊q⌋
  else if (⌊q⌋ : ℚ) + 1 / 2 < q then ⌊q⌋ + 1
  else if ⌊q⌋ % 2 = 0 then ⌊q⌋ else ⌊q⌋ + 1

/-- pandas _round_frac(x, precision): zero is kept; a number with nonzero
integer part (magnitude at least 1) is rounded half-to-even to precision
decimal places; a number of magnitude below 1 is rounded to precision
significant digits of its fractional part, that is to
negExp(abs x) - 1 + precision decimal places. -/
def roundFrac (precision : Nat) (x : ℚ) : ℚ :=
  if x = 0 then x
  else
    ((roundHalfEven (x * (10 : ℚ) ^
        (if -1 < x ∧ x < 1 then
          negExp (if x < 0 then -x else x) - 1 + precision
        else precision)) : ℚ) /
      (10 : ℚ) ^
        (if -1 < x ∧ x < 1 then
          negExp (if x < 0 then -x else x) - 1 + precision
        else precision))

/-- pandas _infer_precision(3, bins): the first precision from 3 to 19
whose rounded breaks are pairwise distinct, or 3 if none is. -/
def inferPrecisionGo (edges : List ℚ) : Nat → Nat → Nat
  | 0, _ => 3
  | fuel + 1, p =>
    if ((edges.map (roundFrac p)).dedup).length = edges.length then p
    else inferPrecisionGo edges fuel (p + 1)

/-- pandas _infer_precision with base precision 3, as pd.cut uses for its
interval labels. -/
def inferPrecision (edges : List ℚ) : Nat := inferPrecisionGo edges 17 3

/-- Rows whose x value lies in the half-open bin (lo, hi]; rows with NaN x
belong to no bin. -/
def binGroup (df : DFrame) (xc : String) (lo hi : ℚ) :
    List (List (String × ℚ)) :=
  df.rows.filter (fun r =>
    match pyLookup xc r with
    | some v => decide (lo < v ∧ v ≤ hi)
    | none => false)

/-- Non-NaN values of column c among the rows of bin (lo, hi]. -/
def binVals (df : DFrame) (xc : String) (lo hi : ℚ) (c : String) : List ℚ :=
  (binGroup df xc lo hi).filterMap (pyLookup c)

/-- Binned aggregation (lines 113-120): pd.cut assigns rows to bins by
searchsorted on the UNROUNDED edges (the lo and hi recorded in each
BinRow), while the interval labels it stores are built from the edges
rounded by _round_frac at the inferred precision; groupby("bin",
observed=False) emits one row per bin category - including bins containing
no rows, whose aggregates are NaN - and line 118 writes each category
label's midpoint (s.name.mid, the mean of the two ROUNDED endpoints) into
the x column, recorded here as xmid.  The preceding sort_values only
reorders rows and cannot change any per-bin mean or variance, so it is
omitted here. -/
def binnedPath (df : DFrame) (xc : String) (cols : List String) (b : Nat) :
    List BinRow :=
  let edges := cutEdges (minOf (df.rows.filterMap (pyLookup xc)))
    (maxOf (df.rows.filterMap (pyLookup xc))) b
  let labels := edges.map (roundFrac (inferPrecision edges))
  ((edges.zip edges.tail).zip (labels.zip labels.tail)).map (fun pq =>
    { lo := pq.1.1
      hi := pq.1.2
      stats := cols.map (fun c =>
        (c, meanOf (binVals df xc pq.1.1 pq.1.2 c),
          svarOf (binVals df xc pq.1.1 pq.1.2 c)))
      xmid := (pq.2.1 + pq.2.2) / 2 })

/-- Non-NaN values of column c among rows whose x value equals x exactly. -/
def groupVals (df : DFrame) (xc : String) (x : ℚ) (c : String) : List ℚ :=
  (df.rows.filter (fun r => decide (pyLookup xc r = some x))).filterMap
    (pyLookup c)

/-- Unbinned aggregation (line 122): groupby on the exact x value with
sort=True lists the distinct non-NaN x keys in ascending order and computes
the mean of every other requested column; no std is computed. -/
def unbinnedPath (df : DFrame) (xc : String) (cols : List String) :
    List XRow :=
  (List.insertionSort (fun a b => a ≤ b)
      ((df.rows.filterMap (pyLookup xc)).dedup)).map (fun x =>
    { x := x, means := cols.map (fun c => (c, meanOf (groupVals df xc x c))) })

/-- Python repr of a list of strings, as printed for df.columns.tolist(). -/
def pyListRepr (cols : List String) : String :=
  "[" ++ String.intercalate ", " (cols.map (fun s => "\x27" ++ s ++ "\x27")) ++ "]"

/-- Message printed at line 110: it reports the AVAILABLE columns of the
concatenated frame, not the missing ones. -/
def missingMsg (avail : List String) : String :=
  "Error: Required column(s) missing.\nAvailable: " ++ pyListRepr avail

/-- multi_plot.py compute_average (lines 104-122).  The first component is
the message printed on the missing-column path (none otherwise), the second
the resulting table. -/
def compute_average (data_frames : List DFrame) (x_col : String)
    (y_cols : List String) (r_col : Option String) (bins : Option Int) :
    Option String × CATable :=
  if data_frames.isEmpty then (none, CATable.emptyT)
  else
    let df := concatFrames data_frames
    if (x_col :: (y_cols ++ r_col.toList)).any
        (fun c => !(df.cols.contains c)) then
      (some (missingMsg df.cols), CATable.emptyT)
    else
      match bins with
      | some b =>
        -- "if bins:" tests truthiness, so 0 falls to the unbinned branch
        if b = 0 then
          (none, CATable.unbinned (unbinnedPath df x_col (y_cols ++ r_col.toList)))
        else if b < 0 then
          -- pd.cut raises ValueError on a non-positive bin count
          (none, CATable.raisedT)
        else if (df.rows.filterMap (pyLookup x_col)).isEmpty then
          -- pd.cut raises on an empty array; no numeric x values is the
          -- degenerate all-NaN situation, modelled as a raise as well
          (none, CATable.raisedT)
        else
          (none, CATable.binned (binnedPath df x_col (y_cols ++ r_col.toList) b.toNat))
      | none =>
        (none, CATable.unbinned (unbinnedPath df x_col (y_cols ++ r_col.toList)))

/-- Guard of the missing-column branch, named for use in theorem
statements; definitionally the condition tested at line 109. -/
def missingAny (frames : List DFrame) (xc : String) (ycs : List String)
    (rc : Option String) : Bool :=
  (xc :: (ycs ++ rc.toList)).any
    (fun c => !((concatFrames frames).cols.contains c))

/-- Group loop of main (lines 213-219): each directory's frames are
aggregated; a group with an empty result is dropped, the others are kept in
order with their labels.  An uncaught exception aborts the whole run, which
the model signals with none. -/
def processGroups (xc : String) (ycs : List String) (rc : Option String)
    (bins : Option Int) :
    List (String × List DFrame) → Option (List (String × CATable))
  | [] => some []
  | g :: rest =>
    if (compute_average g.2 xc ycs rc bins).2 = CATable.raisedT then none
    else
      match processGroups xc ycs rc bins rest with
      | none => none
      | some acc =>
        some (if (compute_average g.2 xc ycs rc bins).2.isEmptyT then acc
          else (g.1, (compute_average g.2 xc ycs rc bins).2) :: acc)

/-- Row of the two worked example tables of the spec. -/
def rowTD (t d : ℚ) : List (String × ℚ) := [("Time", t), ("Disp", d)]

/-- First example table: Time and Disp holding (0,0), (1,2), (2,4). -/
def dfT1 : DFrame := ⟨["Time", "Disp"], [rowTD 0 0, rowTD 1 2, rowTD 2 4]⟩

/-- Second example table: Time and Disp holding (0,1), (1,3), (2,5). -/
def dfT2 : DFrame := ⟨["Time", "Disp"], [rowTD 0 1, rowTD 1 3, rowTD 2 5]⟩

/-- Table whose x range 0..10 leaves the middle of three equal-width bins
without any row. -/
def dfT3 : DFrame := ⟨["Time", "Disp"], [rowTD 0 0, rowTD 1 1, rowTD 10 2]⟩

/-- Table having only a Time column, so a requested Disp column is missing
from the concatenated schema. -/
def dfOnlyTime : DFrame := ⟨["Time"], [[("Time", 0)]]⟩

/-- Claim C7: aggregation of an empty list of tables returns an empty
result immediately, with no error message, for every choice of x column,
y columns, right-axis column and bin count. -/
theorem C7_empty_input (x_col : String) (y_cols : List String)
    (r_col : Option String) (bins : Option Int) :
    compute_average [] x_col y_cols r_col bins = (none, CATable.emptyT) := rfl

/-- Claim C10: with a bin count of 0, the truthiness test "if bins:" sends
execution to the exact-x grouping branch, so the result is identical to the
one with no bin count at all. -/
theorem C10_bins_zero_unbinned (frames : List DFrame) (x_col : String)
    (y_cols : List String) (r_col : Option String) (hne : frames ≠ []) :
    compute_average frames x_col y_cols r_col (some 0) =
      compute_average frames x_col y_cols r_col none := by
  unfold compute_average
  split
  · rfl
  · split
    · rename_i n heq
      injection heq with h
      subst h
      rfl
    · rfl

/-- Witness for C10_bins_zero_unbinned on the example table. -/
theorem C10_bins_zero_unbinned_witness :
    ([dfT1] ≠ []) ∧
    compute_average [dfT1] "Time" ["Disp"] none (some 0) =
      compute_average [dfT1] "Time" ["Disp"] none none :=
  ⟨List.cons_ne_nil _ _,
    C10_bins_zero_unbinned [dfT1] "Time" ["Disp"] none (List.cons_ne_nil _ _)⟩

/-- Claim C1: an integer token in range resolves to the column at that
1-based position, but an out-of-range integer token does NOT fail with the
"index out of range" error: the ValueError raised at line 76 is caught by
the function's own except clause at line 77, so the code reports "column
not found" instead, and a token such as "0" can even resolve successfully
when a column is literally named "0". -/
theorem C1_index_fallthrough_eval :
    resolve_column "2" ["Time", "Disp"] = Except.ok "Disp" ∧
    resolve_column "5" ["Time", "Disp"] = Except.error (notFoundMsg "5") ∧
    resolve_column "5" ["Time", "Disp"] ≠ Except.error (outOfRangeMsg "5") ∧
    resolve_column "0" ["Time", "Disp"] = Except.error (notFoundMsg "0") ∧
    resolve_column "0" ["0", "Disp"] = Except.ok "0" := by decide

/-- Claim C2 (amended): a non-integer token matching an existing column is
returned unchanged; otherwise resolution fails with the "column not found"
error that names the token only.  The error value does not depend on the
available column list, hence it does not report that list. -/
theorem C2_literal_resolution (tok : String) (cols : List String)
    (hna : pyInt tok = none) :
    (tok ∈ cols → resolve_column tok cols = Except.ok tok) ∧
    (tok ∉ cols → resolve_column tok cols = Except.error (notFoundMsg tok)) := by
  unfold resolve_column
  rw [hna]
  refine ⟨fun h => ?_, fun h => ?_⟩
  · simp [h]
  · simp [h]

/-- Witness for C2_literal_resolution at a concrete non-matching token. -/
theorem C2_literal_resolution_witness :
    (pyInt "Foo" = none ∧ "Foo" ∉ ["Time", "Disp"]) ∧
    resolve_column "Foo" ["Time", "Disp"] = Except.error (notFoundMsg "Foo") :=
  ⟨⟨by decide, by decide⟩,
    (C2_literal_resolution "Foo" ["Time", "Disp"] (by decide)).2 (by decide)⟩

/-- Claim C2 counterexample: the "column not found" message for token "Foo"
against columns Time and Disp does not report any of the available column
names, contradicting the claim that the message lists them. -/
theorem C2_not_found_message_counterexample :
    resolve_column "Foo" ["Time", "Disp"] = Except.error (notFoundMsg "Foo") ∧
    containsSeq "Time".toList (notFoundMsg "Foo").toList = false ∧
    containsSeq "Disp".toList (notFoundMsg "Foo").toList = false := by decide

/-! Series Plotter file naming: multi_plot.py lines 192-196. -/

/-- str.replace(" ", "_"): every space character becomes an underscore. -/
def sanitizeSpaces (s : String) : String :=
  String.mk (s.toList.map (fun c => if c = ' ' then '_' else c))

/-- Removal of both parenthesis characters, as done by the two chained
str.replace calls of line 192. -/
def dropParens (s : String) : String :=
  String.mk (s.toList.filter (fun c => !(c = '(' || c = ')')))

/-- Output file name built at lines 192-195: the labels joined with "-" in
their given order, then the sanitized x column (spaces to underscores and
parentheses removed), then the y columns joined with "_" (spaces to
underscores only; parentheses are kept), then optionally "_and_" plus the
right-axis column (spaces to underscores only). -/
def outFileName (labels : List String) (x_col : String)
    (y_cols : List String) (r_col : Option String) : String :=
  String.intercalate "-" labels ++ "_avg_" ++
    dropParens (sanitizeSpaces x_col) ++ "_vs_" ++
    String.intercalate "_" (y_cols.map sanitizeSpaces) ++
    (match r_col with
     | some r => "_and_" ++ sanitizeSpaces r
     | none => "") ++ ".png"

/-- plot_data receives the aggregated tables dfs, the column names and the
labels; the file name it saves to (lines 192-195) is computed from the
labels and column names only, so dfs does not appear on the right-hand
side. -/
def plot_data_outname (dfs : List CATable) (x_col : String)
    (y_cols : List String) (r_col : Option String) (labels : List String) :
    String :=
  outFileName labels x_col y_cols r_col

/-! Header normalization: clean_column_names (multi_plot.py lines 51-53)
and the encoding repair of load_file (plot_results.py lines 53-63).
Header text is modelled as a list of Unicode code points. -/

/-- True when the list starts with a whitespace code point. -/
def headWs : List Nat → Bool
  | [] => false
  | c :: _ => isWsCp c

/-- True when the list ends with a whitespace code point. -/
def lastWs : List Nat → Bool
  | [] => false
  | [c] => isWsCp c
  | _ :: c :: rest => lastWs (c :: rest)

/-- str.lstrip: drop leading whitespace code points. -/
def lstripCp : List Nat → List Nat
  | [] => []
  | c :: rest => if isWsCp c then lstripCp rest else c :: rest

/-- str.rstrip: drop trailing whitespace code points. -/
def rstripCp : List Nat → List Nat
  | [] => []
  | c :: rest =>
    match rstripCp rest with
    | [] => if isWsCp c then [] else [c]
    | d :: t => c :: d :: t

/-- str.strip: drop whitespace at both ends. -/
def stripCp (l : List Nat) : List Nat := lstripCp (rstripCp l)

/-- Left-to-right scan of re.sub(",\x5cs+", ", ", s): at a comma followed
by whitespace, the comma and the whole whitespace run are replaced by
comma-space and scanning resumes after the run; the skipping flag records
that the scan is inside such a run (whose replacement is already
emitted). -/
def collapseGo (skipping : Bool) : List Nat → List Nat
  | [] => []
  | c :: rest =>
    if skipping && isWsCp c then collapseGo true rest
    else if (c == 44) && headWs rest then 44 :: 32 :: collapseGo true rest
    else c :: collapseGo false rest

/-- The comma-whitespace collapsing substitution of line 52. -/
def collapseCommaWs (l : List Nat) : List Nat := collapseGo false l

/-- clean_column_names applied to one header (multi_plot.py line 52):
col.strip() followed by the comma-whitespace collapsing substitution. -/
def cleanName (l : List Nat) : List Nat := collapseCommaWs (stripCp l)

/-- Latin-1 encoding: each code point at most 255 maps to the byte of the
same value; none models the UnicodeEncodeError raised for larger code
points. -/
def latin1Encode (cps : List Nat) : Option (List Nat) :=
  if cps.all (fun c => c < 256) then some cps else none

/-- Continuation byte test (0x80 to 0xBF). -/
def isContByte (b : Nat) : Bool := 128 ≤ b && b < 192

/-- Completion check of a UTF-8 sequence of k bytes with value cp: a
three-byte sequence must not be overlong (below 0x800) or encode a
surrogate; a four-byte sequence must lie in 0x10000 to 0x10FFFF (two-byte
sequences need no check, their leads 0xC0 and 0xC1 being rejected up
front). -/
def utf8Finish (k cp : Nat) : Option Nat :=
  if k = 3 then
    if cp < 2048 || (55296 <= cp && cp < 57344) then none else some cp
  else if k = 4 then
    if cp < 65536 || 1114111 < cp then none else some cp
  else some cp

/-- Byte-at-a-time strict UTF-8 decoder.  The pending state some (k, need,
acc) means the scan is inside a k-byte sequence with need continuation
bytes still expected and acc the value so far; none means a sequence
boundary.  Stray continuation bytes, invalid leads (0x80 to 0xC1 and 0xF5
up), truncated sequences, overlong forms, surrogates and values beyond
0x10FFFF all yield none, as Python's utf-8 codec raises
UnicodeDecodeError. -/
def utf8Go : Option (Nat × Nat × Nat) → List Nat → Option (List Nat)
  | none, [] => some []
  | some _, [] => none
  | none, b :: bs =>
    if b < 128 then (utf8Go none bs).map (fun r => b :: r)
    else if b < 194 then none
    else if b < 224 then utf8Go (some (2, 1, b - 192)) bs
    else if b < 240 then utf8Go (some (3, 2, b - 224)) bs
    else if b < 245 then utf8Go (some (4, 3, b - 240)) bs
    else none
  | some (k, need, acc), b :: bs =>
    if isContByte b then
      if need = 1 then
        (utf8Finish k (acc * 64 + (b - 128))).bind (fun cp =>
          (utf8Go none bs).map (fun r => cp :: r))
      else utf8Go (some (k, need - 1, acc * 64 + (b - 128))) bs
    else none

/-- Decoding a whole byte string starts at a sequence boundary. -/
def utf8Decode (bs : List Nat) : Option (List Nat) := utf8Go none bs

/-- Header repair of load_file (plot_results.py line 58):
encode("latin1") then decode("utf-8") then lstrip(). -/
def repairHeader (cps : List Nat) : Option (List Nat) :=
  ((latin1Encode cps).bind utf8Decode).map lstripCp

/-! Shared lemmas about the aggregation paths -/

theorem isEmpty_false_of_ne_nil {α : Type} {l : List α} (h : l ≠ []) :
    l.isEmpty = false := by
  cases l with
  | nil => exact absurd rfl h
  | cons a t => rfl

theorem meanOf_eq_none_iff (vs : List ℚ) : meanOf vs = none ↔ vs = [] := by
  unfold meanOf
  by_cases h : vs.length = 0
  · simp [h, List.length_eq_zero.mp h]
  · simp [h]
    exact fun hh => h (by simp [hh])

theorem compute_average_unbinned_eq (frames : List DFrame) (xc : String)
    (ycs : List String) (rc : Option String)
    (hne : frames.isEmpty = false)
    (hmiss : missingAny frames xc ycs rc = false) :
    compute_average frames xc ycs rc none =
      (none, CATable.unbinned
        (unbinnedPath (concatFrames frames) xc (ycs ++ rc.toList))) := by
  unfold missingAny at hmiss
  unfold compute_average
  rw [hne]
  simp only [Bool.false_eq_true, if_false, hmiss]

theorem compute_average_binned_eq (frames : List DFrame) (xc : String)
    (ycs : List String) (rc : Option String) (b : Int)
    (hne : frames.isEmpty = false)
    (hmiss : missingAny frames xc ycs rc = false)
    (hb : 0 < b)
    (hx : ((concatFrames frames).rows.filterMap (pyLookup xc)).isEmpty = false) :
    compute_average frames xc ycs rc (some b) =
      (none, CATable.binned
        (binnedPath (concatFrames frames) xc (ycs ++ rc.toList) b.toNat)) := by
  unfold missingAny at hmiss
  unfold compute_average
  rw [hne]
  simp only [Bool.false_eq_true, if_false, hmiss, hx]
  rw [if_neg (by omega), if_neg (by omega)]

theorem compute_average_missing_eq (frames : List DFrame) (xc : String)
    (ycs : List String) (rc : Option String) (bins : Option Int)
    (hne : frames.isEmpty = false)
    (hmiss : missingAny frames xc ycs rc = true) :
    compute_average frames xc ycs rc bins =
      (some (missingMsg (concatFrames frames).cols), CATable.emptyT) := by
  unfold missingAny at hmiss
  unfold compute_average
  rw [hne]
  simp only [Bool.false_eq_true, if_false, hmiss, if_true]

theorem binnedPath_length (df : DFrame) (xc : String) (cols : List String)
    (b : Nat) : (binnedPath df xc cols b).length = b := by
  unfold binnedPath cutEdges
  split <;>
    simp only [List.length_map, List.length_zip, List.length_tail,
      List.length_range, Nat.add_sub_cancel] <;>
    rw [show (b + 1) ⊓ b = b from inf_eq_right.mpr (Nat.le_succ b), inf_idem]

theorem processGroups_append_skip (xc : String) (ycs : List String)
    (rc : Option String) (bins : Option Int) (lab : String)
    (frames : List DFrame)
    (hskip : (compute_average frames xc ycs rc bins).2 = CATable.emptyT) :
    ∀ pre post, processGroups xc ycs rc bins (pre ++ (lab, frames) :: post) =
      processGroups xc ycs rc bins (pre ++ post) := by
  intro pre
  induction pre with
  | nil =>
    intro post
    simp only [List.nil_append, processGroups, hskip, CATable.isEmptyT]
    cases processGroups xc ycs rc bins post <;> simp
  | cons g pre ih =>
    intro post
    simp only [List.cons_append, processGroups, List.append_eq]
    rw [ih post]

/-- Claim C4 (amended): for the two example tables with bins=1 the result
has exactly one row, aggregating all six Disp values: its mean is 5/2 and
its squared sample std is 7/2.  pd.cut extends the left edge of the single
interval by 0.1 percent of the observed range, so the bin is (-1/500, 2]
and the representative x value is its midpoint 999/1000 rather than 1. -/
theorem C4_single_bin_eval :
    compute_average [dfT1, dfT2] "Time" ["Disp"] none (some 1) =
      (none, CATable.binned
        [⟨-1/500, 2, [("Disp", some (5/2), some (7/2))], 999/1000⟩]) ∧
    meanOf [0, 2, 4, 1, 3, 5] = some (5/2) ∧
    svarOf [0, 2, 4, 1, 3, 5] = some (7/2) ∧
    ((999 : ℚ)/1000) = ((-1/500) + 2) / 2 := by
  have hr1 : roundFrac 3 (-(1/500) : ℚ) = -(1/500) := by
    norm_num [roundFrac, negExp, roundHalfEven,
      (show numDigits ((500 : Int).toNat - 1) = 3 by decide)]
  have hr2 : roundFrac 3 (2 : ℚ) = 2 := by
    norm_num [roundFrac, roundHalfEven]
  have hp : inferPrecision [-(1/500), 2] = 3 := by
    rw [inferPrecision, inferPrecisionGo]
    norm_num [hr1, hr2, List.dedup, List.pwFilter]
  refine ⟨?_, by norm_num [meanOf], by norm_num [svarOf], by norm_num⟩
  norm_num [compute_average, binnedPath, cutEdges, binGroup, binVals, minOf,
    maxOf, meanOf, svarOf, concatFrames, unionCols, dfT1, dfT2, rowTD,
    pyLookup, List.filterMap, List.filter_cons, List.range_succ,
    List.zip, List.zipWith, decide_eq_true_eq, hp, hr1, hr2,
    (show (1:Int).toNat = 1 from rfl),
    (show ("Disp" : String) ≠ "Time" by decide)]
  intro h
  exact Option.noConfusion h

/-- Claim C4 counterexample: with bins=1 the single row's representative x
value is 999/1000 (the midpoint of the pd.cut interval (-1/500, 2]), which
is not 1, the midpoint of [0, 2] asserted by the claim. -/
theorem C4_midpoint_counterexample :
    ((compute_average [dfT1, dfT2] "Time" ["Disp"] none (some 1)).2.brows.map
      BinRow.xmid) = [999/1000] ∧ ((999 : ℚ)/1000) ≠ 1 := by
  have hr1 : roundFrac 3 (-(1/500) : ℚ) = -(1/500) := by
    norm_num [roundFrac, negExp, roundHalfEven,
      (show numDigits ((500 : Int).toNat - 1) = 3 by decide)]
  have hr2 : roundFrac 3 (2 : ℚ) = 2 := by
    norm_num [roundFrac, roundHalfEven]
  have hp : inferPrecision [-(1/500), 2] = 3 := by
    rw [inferPrecision, inferPrecisionGo]
    norm_num [hr1, hr2, List.dedup, List.pwFilter]
  constructor
  · norm_num [compute_average, binnedPath, cutEdges, binGroup, binVals,
      minOf, maxOf, meanOf, svarOf, concatFrames, unionCols, dfT1, dfT2,
      rowTD, pyLookup, List.filterMap, List.filter_cons, List.range_succ,
      List.zip, List.zipWith, decide_eq_true_eq, CATable.brows, hp, hr1, hr2,
      (show (1:Int).toNat = 1 from rfl),
      (show ("Disp" : String) ≠ "Time" by decide)]
  · norm_num

/-- Claim C3 counterexample: for x values 0, 1 and 10 with bins=3 the
middle bin with raw edges (10/3, 20/3] contains no rows, yet a row is
emitted for it with NaN (none) mean and std; the result holds one row for
each of the three intervals of the partition, not only the two non-empty
ones.  The representative x values are the midpoints of the stored labels,
whose endpoints are rounded to three decimals: (-0.01, 3.333],
(3.333, 6.667] and (6.667, 10.0] give mids 3323/2000 = 1.6615, 5 and
16667/2000 = 8.3335. -/
theorem C3_empty_bin_emitted_counterexample :
    compute_average [dfT3] "Time" ["Disp"] none (some 3) =
      (none, CATable.binned
        [⟨-1/100, 10/3, [("Disp", some (1/2), some (1/2))], 3323/2000⟩,
         ⟨10/3, 20/3, [("Disp", none, none)], 5⟩,
         ⟨20/3, 10, [("Disp", some 2, none)], 16667/2000⟩]) := by
  have hr1 : roundFrac 3 (-(1/100) : ℚ) = -(1/100) := by
    norm_num [roundFrac, negExp, roundHalfEven,
      (show numDigits ((100 : Int).toNat - 1) = 2 by decide)]
  have hr2 : roundFrac 3 ((10 : ℚ)/3) = 3333/1000 := by
    norm_num [roundFrac, roundHalfEven]
  have hr3 : roundFrac 3 ((20 : ℚ)/3) = 6667/1000 := by
    norm_num [roundFrac, roundHalfEven]
  have hr4 : roundFrac 3 (10 : ℚ) = 10 := by
    norm_num [roundFrac, roundHalfEven]
  have hp : inferPrecision [-(1/100), 10/3, 20/3, 10] = 3 := by
    rw [inferPrecision, inferPrecisionGo]
    norm_num [hr1, hr2, hr3, hr4, List.dedup, List.pwFilter]
  norm_num [compute_average, binnedPath, cutEdges, binGroup, binVals, minOf,
    maxOf, meanOf, svarOf, concatFrames, unionCols, dfT3, rowTD,
    pyLookup, List.filterMap, List.filter_cons, List.range_succ,
    List.zip, List.zipWith, decide_eq_true_eq, hp, hr1, hr2, hr3, hr4,
    (show (3:Int).toNat = 3 from rfl),
    (show ("Disp" : String) ≠ "Time" by decide)]
  exact ⟨fun h _ => Option.noConfusion h, fun h => Option.noConfusion h⟩

/-- Claim C3 (amended): with a positive bin count, every interval of the
equal-width partition is emitted as one result row - groupby with
observed=False includes unobserved bin categories - so the result has
exactly bins rows, and a row's mean for a column is NaN (none) precisely
when no row of the concatenated input contributes a value of that column
inside the row's interval. -/
theorem C3_all_intervals_emitted (frames : List DFrame) (xc : String)
    (ycs : List String) (rc : Option String) (b : Int)
    (hne : frames ≠ []) (hmiss : missingAny frames xc ycs rc = false)
    (hb : 0 < b)
    (hx : (concatFrames frames).rows.filterMap (pyLookup xc) ≠ []) :
    (compute_average frames xc ycs rc (some b)).2 =
      CATable.binned
        (binnedPath (concatFrames frames) xc (ycs ++ rc.toList) b.toNat) ∧
    (compute_average frames xc ycs rc (some b)).2.brows.length = b.toNat ∧
    ∀ row ∈ (compute_average frames xc ycs rc (some b)).2.brows,
      ∀ st ∈ row.stats,
        (st.2.1 = none ↔
          binVals (concatFrames frames) xc row.lo row.hi st.1 = []) := by
  have hpath := compute_average_binned_eq frames xc ycs rc b
    (isEmpty_false_of_ne_nil hne) hmiss hb (isEmpty_false_of_ne_nil hx)
  have hbrows : (compute_average frames xc ycs rc (some b)).2.brows =
      binnedPath (concatFrames frames) xc (ycs ++ rc.toList) b.toNat := by
    rw [hpath]
    rfl
  refine ⟨by rw [hpath], ?_, ?_⟩
  · rw [hbrows]
    exact binnedPath_length _ _ _ _
  · rw [hbrows]
    intro row hrow st hst
    unfold binnedPath at hrow
    obtain ⟨p, hp, rfl⟩ := List.mem_map.mp hrow
    simp only at hst
    obtain ⟨c, hc, rfl⟩ := List.mem_map.mp hst
    exact meanOf_eq_none_iff _

/-- Witness for C3_all_intervals_emitted on the three-bin example. -/
theorem C3_all_intervals_emitted_witness :
    ([dfT3] ≠ [] ∧ missingAny [dfT3] "Time" ["Disp"] none = false ∧
      (0 : Int) < 3 ∧
      (concatFrames [dfT3]).rows.filterMap (pyLookup "Time") ≠ []) ∧
    ((compute_average [dfT3] "Time" ["Disp"] none (some 3)).2 =
      CATable.binned
        (binnedPath (concatFrames [dfT3]) "Time"
          (["Disp"] ++ (none : Option String).toList) (3 : Int).toNat) ∧
    (compute_average [dfT3] "Time" ["Disp"] none (some 3)).2.brows.length =
      (3 : Int).toNat ∧
    ∀ row ∈ (compute_average [dfT3] "Time" ["Disp"] none (some 3)).2.brows,
      ∀ st ∈ row.stats,
        (st.2.1 = none ↔
          binVals (concatFrames [dfT3]) "Time" row.lo row.hi st.1 = [])) :=
  ⟨⟨List.cons_ne_nil _ _, by decide, by decide, by decide⟩,
    C3_all_intervals_emitted [dfT3] "Time" ["Disp"] none 3
      (List.cons_ne_nil _ _) (by decide) (by decide) (by decide)⟩

/-- Claim C5 (amended): when a required column is absent from the
concatenated schema of a non-empty group, compute_average prints the
missing-column error - whose text reports the available columns rather than
naming the absent ones - and returns an empty table; the group loop of main
then drops exactly that group and processes the remaining groups
unchanged. -/
theorem C5_missing_column_skips_group (pre post : List (String × List DFrame))
    (lab : String) (frames : List DFrame) (xc : String) (ycs : List String)
    (rc : Option String) (bins : Option Int)
    (hne : frames ≠ [])
    (hmiss : missingAny frames xc ycs rc = true) :
    compute_average frames xc ycs rc bins =
      (some (missingMsg (concatFrames frames).cols), CATable.emptyT) ∧
    processGroups xc ycs rc bins (pre ++ (lab, frames) :: post) =
      processGroups xc ycs rc bins (pre ++ post) := by
  have h1 := compute_average_missing_eq frames xc ycs rc bins
    (isEmpty_false_of_ne_nil hne) hmiss
  exact ⟨h1, processGroups_append_skip xc ycs rc bins lab frames
    (by rw [h1]) pre post⟩

/-- Witness for C5_missing_column_skips_group: the group G1 lacks Disp and
is dropped, while the sibling group G2 is processed. -/
theorem C5_missing_column_skips_group_witness :
    ([dfOnlyTime] ≠ [] ∧ missingAny [dfOnlyTime] "Time" ["Disp"] none = true) ∧
    (compute_average [dfOnlyTime] "Time" ["Disp"] none none =
      (some (missingMsg (concatFrames [dfOnlyTime]).cols), CATable.emptyT) ∧
    processGroups "Time" ["Disp"] none none
        ([("G2", [dfT1])] ++ ("G1", [dfOnlyTime]) :: []) =
      processGroups "Time" ["Disp"] none none ([("G2", [dfT1])] ++ [])) :=
  ⟨⟨List.cons_ne_nil _ _, by decide⟩,
    C5_missing_column_skips_group [("G2", [dfT1])] [] "G1" [dfOnlyTime]
      "Time" ["Disp"] none none (List.cons_ne_nil _ _) (by decide)⟩

/-- Claim C5 counterexample: the missing-column message for a group whose
only column is Time, with Disp requested, does not mention the absent
column Disp at all - it reports the available column list instead - so the
claim that the error names the absent column(s) fails. -/
theorem C5_message_counterexample :
    compute_average [dfOnlyTime] "Time" ["Disp"] none none =
      (some (missingMsg ["Time"]), CATable.emptyT) ∧
    containsSeq "Disp".toList (missingMsg ["Time"]).toList = false ∧
    containsSeq "Time".toList (missingMsg ["Time"]).toList = true := by decide

theorem unbinnedPath_map_x (df : DFrame) (xc : String) (cols : List String) :
    (unbinnedPath df xc cols).map XRow.x =
      List.insertionSort (fun a b => a ≤ b)
        ((df.rows.filterMap (pyLookup xc)).dedup) := by
  unfold unbinnedPath
  rw [List.map_map]
  exact List.map_id _

/-- Claim C6: unbinned aggregation groups by the exact x value: the output
x values are exactly the distinct x values of the concatenated input,
ascending and without repetition, each paired with the per-column means of
the rows sharing that x value (an XRow holds no std field, matching the
absence of a std column on this path); on the two example tables it yields
the rows (0, 1/2), (1, 5/2), (2, 9/2) in ascending Time order. -/
theorem C6_unbinned_mean_sorted :
    (∀ (frames : List DFrame) (xc : String) (ycs : List String)
      (rc : Option String), frames ≠ [] →
      missingAny frames xc ycs rc = false →
      compute_average frames xc ycs rc none =
        (none, CATable.unbinned
          (unbinnedPath (concatFrames frames) xc (ycs ++ rc.toList))) ∧
      ((compute_average frames xc ycs rc none).2.urows.map XRow.x).Sorted
        (fun a b => a ≤ b) ∧
      ((compute_average frames xc ycs rc none).2.urows.map XRow.x).Nodup ∧
      (∀ q : ℚ,
        q ∈ (compute_average frames xc ycs rc none).2.urows.map XRow.x ↔
        q ∈ (concatFrames frames).rows.filterMap (pyLookup xc)) ∧
      (∀ row ∈ (compute_average frames xc ycs rc none).2.urows,
        row.means = (ycs ++ rc.toList).map
          (fun c => (c, meanOf (groupVals (concatFrames frames) xc row.x c))))) ∧
    compute_average [dfT1, dfT2] "Time" ["Disp"] none none =
      (none, CATable.unbinned
        [⟨0, [("Disp", some (1/2))]⟩, ⟨1, [("Disp", some (5/2))]⟩,
         ⟨2, [("Disp", some (9/2))]⟩]) := by
  constructor
  · intro frames xc ycs rc hne hmiss
    have hpath := compute_average_unbinned_eq frames xc ycs rc
      (isEmpty_false_of_ne_nil hne) hmiss
    have hurows : (compute_average frames xc ycs rc none).2.urows =
        unbinnedPath (concatFrames frames) xc (ycs ++ rc.toList) := by
      rw [hpath]
      rfl
    refine ⟨hpath, ?_, ?_, ?_, ?_⟩
    · rw [hurows, unbinnedPath_map_x]
      exact List.sorted_insertionSort _ _
    · rw [hurows, unbinnedPath_map_x]
      exact ((List.perm_insertionSort _ _).nodup_iff).mpr (List.nodup_dedup _)
    · intro q
      rw [hurows, unbinnedPath_map_x]
      exact ((List.perm_insertionSort _ _).mem_iff).trans List.mem_dedup
    · rw [hurows]
      intro row hrow
      unfold unbinnedPath at hrow
      obtain ⟨x, hx, rfl⟩ := List.mem_map.mp hrow
      rfl
  · norm_num [compute_average, unbinnedPath, groupVals, meanOf, concatFrames,
      unionCols, dfT1, dfT2, rowTD, pyLookup, List.dedup, List.pwFilter,
      List.insertionSort, List.orderedInsert, List.filterMap, List.filter,
      (show ("Disp" : String) ≠ "Time" by decide)]
    refine ⟨?_, ?_, ?_⟩ <;> exact fun h h2 => Option.noConfusion h

/-- Witness for the universal part of C6_unbinned_mean_sorted on a single
example table. -/
theorem C6_unbinned_mean_sorted_witness :
    ([dfT1] ≠ [] ∧ missingAny [dfT1] "Time" ["Disp"] none = false) ∧
    (compute_average [dfT1] "Time" ["Disp"] none none =
      (none, CATable.unbinned
        (unbinnedPath (concatFrames [dfT1]) "Time"
          (["Disp"] ++ (none : Option String).toList))) ∧
    ((compute_average [dfT1] "Time" ["Disp"] none none).2.urows.map
      XRow.x).Sorted (fun a b => a ≤ b) ∧
    ((compute_average [dfT1] "Time" ["Disp"] none none).2.urows.map
      XRow.x).Nodup ∧
    (∀ q : ℚ,
      q ∈ (compute_average [dfT1] "Time" ["Disp"] none none).2.urows.map
        XRow.x ↔
      q ∈ (concatFrames [dfT1]).rows.filterMap (pyLookup "Time")) ∧
    (∀ row ∈ (compute_average [dfT1] "Time" ["Disp"] none none).2.urows,
      row.means = (["Disp"] ++ (none : Option String).toList).map
        (fun c =>
          (c, meanOf (groupVals (concatFrames [dfT1]) "Time" row.x c))))) :=
  ⟨⟨List.cons_ne_nil _ _, by decide⟩,
    C6_unbinned_mean_sorted.1 [dfT1] "Time" ["Disp"] none
      (List.cons_ne_nil _ _) (by decide)⟩

/-- Claim C8 counterexample: swapping the two group labels changes the file
name, so the name is not derived from the SORTED labels; and the y column
part keeps its parentheses, so parentheses are not stripped from all column
names. -/
theorem C8_label_order_counterexample :
    outFileName ["B", "A"] "Time (s)" ["Disp (mm)"] none ≠
      outFileName ["A", "B"] "Time (s)" ["Disp (mm)"] none ∧
    containsSeq "(".toList
      (outFileName ["A"] "Time (s)" ["Disp (mm)"] none).toList = true := by
  decide

/-- Claim C8 (amended): the output file name is a pure, deterministic
function of the group labels (joined in their given order, not sorted) and
the resolved column names, with spaces replaced by underscores in all of
them and parentheses removed from the x column only; the aggregated data
values play no part, so two runs with identical groups and columns produce
identical names regardless of the data. -/
theorem C8_outname_data_independent :
    (∀ (dfs dfs2 : List CATable) (labels : List String) (xc : String)
      (ycs : List String) (rc : Option String),
      plot_data_outname dfs xc ycs rc labels =
        plot_data_outname dfs2 xc ycs rc labels) ∧
    outFileName ["B", "A"] "Time (s)" ["Disp (mm)"] none =
      "B-A_avg_Time_s_vs_Disp_(mm).png" :=
  ⟨fun _ _ _ _ _ _ => rfl, by decide⟩

/-! Lemmas about stripping and the comma-whitespace collapse -/

theorem lastWs_cons_of_ne_nil (a : Nat) (m : List Nat) (h : m ≠ []) :
    lastWs (a :: m) = lastWs m := by
  cases m with
  | nil => exact absurd rfl h
  | cons b t => rfl

theorem headWs_lstripCp (l : List Nat) : headWs (lstripCp l) = false := by
  induction l with
  | nil => rfl
  | cons c rest ih =>
    unfold lstripCp
    cases hc : isWsCp c with
    | true => simpa [hc] using ih
    | false => simp [hc, headWs]

theorem lastWs_rstripCp (l : List Nat) : lastWs (rstripCp l) = false := by
  induction l with
  | nil => rfl
  | cons c rest ih =>
    unfold rstripCp
    cases hr : rstripCp rest with
    | nil =>
      cases hc : isWsCp c with
      | true => simp [hc, lastWs]
      | false => simp [hc, lastWs]
    | cons d t =>
      rw [hr] at ih
      simpa [lastWs_cons_of_ne_nil c (d :: t) (List.cons_ne_nil d t)] using ih

theorem lastWs_lstripCp (l : List Nat) (h : lastWs l = false) :
    lastWs (lstripCp l) = false := by
  induction l with
  | nil => rfl
  | cons c rest ih =>
    unfold lstripCp
    cases hc : isWsCp c with
    | false => simpa [hc] using h
    | true =>
      simp only [hc, if_true]
      cases rest with
      | nil => rfl
      | cons d t => exact ih h

theorem lstripCp_eq_of_headWs_false (l : List Nat) (h : headWs l = false) :
    lstripCp l = l := by
  cases l with
  | nil => rfl
  | cons c rest =>
    unfold lstripCp
    rw [show isWsCp c = false from h]
    simp

theorem rstripCp_eq_of_lastWs_false (l : List Nat) (h : lastWs l = false) :
    rstripCp l = l := by
  induction l with
  | nil => rfl
  | cons c rest ih =>
    cases rest with
    | nil =>
      unfold rstripCp
      rw [show isWsCp c = false from h]
      simp [rstripCp]
    | cons d t =>
      have hr : rstripCp (d :: t) = d :: t := ih h
      unfold rstripCp
      rw [hr]

theorem headWs_stripCp (l : List Nat) : headWs (stripCp l) = false :=
  headWs_lstripCp _

theorem lastWs_stripCp (l : List Nat) : lastWs (stripCp l) = false :=
  lastWs_lstripCp _ (lastWs_rstripCp l)

theorem headWs_collapseGo_true (l : List Nat) :
    headWs (collapseGo true l) = false := by
  induction l with
  | nil => rfl
  | cons c rest ih =>
    unfold collapseGo
    cases hc : isWsCp c with
    | true => simpa [hc] using ih
    | false =>
      cases h2 : (c == 44) && headWs rest with
      | true => simp [hc, h2, headWs, (show isWsCp 44 = false from rfl)]
      | false => simp [hc, h2, headWs]

theorem collapseGo_skip_eq (l : List Nat) (h : headWs l = false) :
    collapseGo true l = collapseGo false l := by
  cases l with
  | nil => rfl
  | cons c rest =>
    unfold collapseGo
    rw [show isWsCp c = false from h]
    simp

theorem headWs_collapseGo_false (l : List Nat) :
    headWs (collapseGo false l) = headWs l := by
  cases l with
  | nil => rfl
  | cons c rest =>
    unfold collapseGo
    simp only [Bool.false_and, Bool.false_eq_true, if_false]
    cases h2 : (c == 44) && headWs rest with
    | true =>
      have hc : c = 44 := by
        have h3 := (Bool.and_eq_true _ _).mp h2
        simpa using h3.1
      subst hc
      simp [h2, headWs, (show isWsCp 44 = false from rfl)]
    | false => simp [headWs]

theorem collapseGo_false_nil_iff (l : List Nat) :
    collapseGo false l = [] ↔ l = [] := by
  cases l with
  | nil => simp [collapseGo]
  | cons c rest =>
    unfold collapseGo
    simp only [Bool.false_and, Bool.false_eq_true, if_false]
    cases h2 : (c == 44) && headWs rest <;> simp

theorem allWs_of_collapseGo_true_nil (l : List Nat)
    (h : collapseGo true l = []) : l.all isWsCp = true := by
  induction l with
  | nil => rfl
  | cons c rest ih =>
    unfold collapseGo at h
    cases hc : isWsCp c with
    | true =>
      rw [hc] at h
      simp only [Bool.and_true, if_true] at h
      simp [hc, ih h]
    | false =>
      rw [hc] at h
      simp only [Bool.and_false, Bool.false_eq_true, if_false] at h
      cases h2 : (c == 44) && headWs rest <;> rw [h2] at h <;> simp at h

theorem lastWs_allWs (l : List Nat) (hne : l ≠ []) (h : l.all isWsCp = true) :
    lastWs l = true := by
  induction l with
  | nil => exact absurd rfl hne
  | cons c rest ih =>
    cases rest with
    | nil =>
      have : isWsCp c = true := by simpa using h
      simpa [lastWs] using this
    | cons d t =>
      have h2 : (d :: t).all isWsCp = true := by
        simp at h
        simpa using h.2
      exact ih (List.cons_ne_nil d t) h2

theorem collapseGo_true_cons_ws (c : Nat) (l : List Nat)
    (h : isWsCp c = true) :
    collapseGo true (c :: l) = collapseGo true l := by
  conv_lhs => unfold collapseGo
  simp [h]

theorem collapseGo_cons_not_skip (b : Bool) (c : Nat) (l : List Nat)
    (h : (b && isWsCp c) = false) :
    collapseGo b (c :: l) =
      if ((c == 44) && headWs l) = true then 44 :: 32 :: collapseGo true l
      else c :: collapseGo false l := by
  conv_lhs => unfold collapseGo
  rw [h]
  simp

theorem lastWs_collapseGo (l : List Nat) : ∀ b, lastWs l = false →
    lastWs (collapseGo b l) = false := by
  induction l with
  | nil =>
    intro b _
    cases b <;> rfl
  | cons c rest ih =>
    intro b h
    cases hb1 : b && isWsCp c with
    | true =>
      have hb : b = true := ((Bool.and_eq_true _ _).mp hb1).1
      have hw : isWsCp c = true := ((Bool.and_eq_true _ _).mp hb1).2
      rw [hb, collapseGo_true_cons_ws c rest hw]
      cases rest with
      | nil => rfl
      | cons d t => exact ih true h
    | false =>
      rw [collapseGo_cons_not_skip b c rest hb1]
      cases h2 : (c == 44) && headWs rest with
      | true =>
        simp only [h2, if_true]
        have hrest_ne : rest ≠ [] := by
          intro hr
          rw [hr] at h2
          simp [headWs] at h2
        have hlast_rest : lastWs rest = false := by
          rw [← lastWs_cons_of_ne_nil c rest hrest_ne]
          exact h
        cases hX : collapseGo true rest with
        | nil =>
          have hall := allWs_of_collapseGo_true_nil rest hX
          have htr := lastWs_allWs rest hrest_ne hall
          rw [htr] at hlast_rest
          cases hlast_rest
        | cons e u =>
          rw [lastWs_cons_of_ne_nil 44 (32 :: e :: u) (List.cons_ne_nil _ _),
            lastWs_cons_of_ne_nil 32 (e :: u) (List.cons_ne_nil _ _), ← hX]
          exact ih true hlast_rest
      | false =>
        simp only [h2, Bool.false_eq_true, if_false]
        cases rest with
        | nil => simpa [lastWs] using h
        | cons d t =>
          cases hY : collapseGo false (d :: t) with
          | nil =>
            rw [collapseGo_false_nil_iff] at hY
            cases hY
          | cons e u =>
            rw [lastWs_cons_of_ne_nil c (e :: u) (List.cons_ne_nil _ _), ← hY]
            exact ih false h

theorem collapseGo_false_idem (l : List Nat) :
    ∀ b, collapseGo false (collapseGo b l) = collapseGo b l := by
  induction l with
  | nil =>
    intro b
    cases b <;> rfl
  | cons c rest ih =>
    intro b
    cases hb1 : b && isWsCp c with
    | true =>
      have hb : b = true := ((Bool.and_eq_true _ _).mp hb1).1
      have hw : isWsCp c = true := ((Bool.and_eq_true _ _).mp hb1).2
      rw [hb, collapseGo_true_cons_ws c rest hw]
      exact ih true
    | false =>
      rw [collapseGo_cons_not_skip b c rest hb1]
      cases h2 : (c == 44) && headWs rest with
      | true =>
        simp only [h2, if_true]
        rw [collapseGo_cons_not_skip false 44 (32 :: collapseGo true rest)
          (Bool.false_and _)]
        rw [if_pos (by
          simp [headWs, (show isWsCp 32 = true from rfl)])]
        rw [collapseGo_true_cons_ws 32 _ (by rfl)]
        rw [collapseGo_skip_eq _ (headWs_collapseGo_true rest)]
        rw [ih true]
      | false =>
        simp only [h2, Bool.false_eq_true, if_false]
        rw [collapseGo_cons_not_skip false c (collapseGo false rest)
          (Bool.false_and _)]
        rw [if_neg (by
          rw [headWs_collapseGo_false]
          simp [h2])]
        rw [ih false]

theorem cleanName_idem (l : List Nat) : cleanName (cleanName l) = cleanName l := by
  unfold cleanName collapseCommaWs
  have h1 : lastWs (collapseGo false (stripCp l)) = false :=
    lastWs_collapseGo _ false (lastWs_stripCp l)
  have h2 : headWs (collapseGo false (stripCp l)) = false := by
    rw [headWs_collapseGo_false]
    exact headWs_stripCp l
  have h3 : stripCp (collapseGo false (stripCp l)) =
      collapseGo false (stripCp l) := by
    show lstripCp (rstripCp (collapseGo false (stripCp l))) =
      collapseGo false (stripCp l)
    rw [rstripCp_eq_of_lastWs_false _ h1, lstripCp_eq_of_headWs_false _ h2]
  rw [h3]
  exact collapseGo_false_idem _ false

theorem utf8Decode_ascii (l : List Nat)
    (h : l.all (fun c => c < 128) = true) : utf8Decode l = some l := by
  induction l with
  | nil => rfl
  | cons b bs ih =>
    rw [List.all_cons] at h
    have h1 := ((Bool.and_eq_true _ _).mp h).1
    have h2 := ((Bool.and_eq_true _ _).mp h).2
    show utf8Go none (b :: bs) = some (b :: bs)
    rw [utf8Go, if_pos (of_decide_eq_true h1)]
    rw [show utf8Go none bs = some bs from ih h2]
    rfl

theorem latin1Encode_ascii (l : List Nat)
    (h : l.all (fun c => c < 128) = true) : latin1Encode l = some l := by
  have h2 : l.all (fun c => c < 256) = true := by
    rw [List.all_eq_true] at h ⊢
    intro x hx
    have h3 := h x hx
    simp only [decide_eq_true_eq] at h3 ⊢
    omega
  unfold latin1Encode
  rw [h2]
  simp

theorem repairHeader_headWs (s t : List Nat) (hs : repairHeader s = some t) :
    headWs t = false := by
  unfold repairHeader at hs
  cases hl : latin1Encode s with
  | none =>
    rw [hl] at hs
    simp at hs
  | some bs =>
    rw [hl] at hs
    simp only [Option.some_bind] at hs
    cases hd : utf8Decode bs with
    | none =>
      rw [hd] at hs
      simp at hs
    | some u =>
      rw [hd] at hs
      simp at hs
      rw [← hs]
      exact headWs_lstripCp u

/-- Claim C9 (amended): the two header normalizations behave differently
under repetition.  The comma-whitespace collapse of clean_column_names
(multi_plot.py line 52) is idempotent for every header.  The mojibake
repair of load_file (plot_results.py line 58) is idempotent on headers
whose repaired form is pure ASCII - re-encoding and re-decoding ASCII text
is the identity - but not in general (see the counterexample). -/
theorem C9_normalization_idempotence :
    (∀ l : List Nat, cleanName (cleanName l) = cleanName l) ∧
    (∀ s t : List Nat, repairHeader s = some t →
      t.all (fun c => c < 128) = true → repairHeader t = some t) := by
  refine ⟨cleanName_idem, fun s t hs ht => ?_⟩
  have hhead : headWs t = false := repairHeader_headWs s t hs
  unfold repairHeader
  rw [latin1Encode_ascii t ht]
  show (utf8Decode t).map lstripCp = some t
  rw [utf8Decode_ascii t ht]
  show some (lstripCp t) = some t
  rw [lstripCp_eq_of_headWs_false t hhead]

/-- Witness for C9_normalization_idempotence: the header " A" (a space
then the letter A) repairs to "A", which is ASCII, and repairing "A" again
returns it unchanged. -/
theorem C9_normalization_idempotence_witness :
    (repairHeader [32, 65] = some [65] ∧
      ([65] : List Nat).all (fun c => c < 128) = true) ∧
    repairHeader [65] = some [65] :=
  ⟨⟨by decide, by decide⟩,
    C9_normalization_idempotence.2 [32, 65] [65] (by decide) (by decide)⟩

/-- Claim C9 counterexample: the mojibake header with code points 0xC2 0xB5
(the mis-decoding of the UTF-8 bytes of the micro sign) repairs to the
micro sign 0xB5, but applying the repair a second time fails - the single
byte 0xB5 is not valid UTF-8 - so normalizing an already-normalized header
does not return it unchanged; it raises UnicodeDecodeError. -/
theorem C9_repair_counterexample :
    repairHeader [194, 181] = some [181] ∧ repairHeader [181] = none := by
  decide
